import Mathlib

/-!
# TCP echo server and client: embedding and properties

A shallow embedding of `src/src/server.cpp` and `src/client.cpp`.

* A C `char` is a `Char`; a C string is the list of its characters before the
  terminating NUL (`Char.ofNat 0`).
* The operating system is an explicit environment: every system call takes
  the behaviour the environment scripts for it and appends one `Event` to the
  trace of the process.  A script is finite; a process that needs an input
  the script does not provide is blocked in that call.
* Console output (`std::cout`, `std::cerr`) is not part of the trace, nor is
  the call `std::signal(SIGPIPE, SIG_IGN)`: a failed `send` shows as its
  negative return value.
-/

namespace EchoLink

/-! ## Environment -/

/-- What the socket layer has ready for one `recv` call. -/
inductive RecvEnv where
  /-- the call fails and returns -1 -/
  | error
  /-- the peer has shut the connection down and nothing is pending -/
  | closed
  /-- these bytes are pending in the receive queue; with none pending the call
  returns 0, as for a closed connection -/
  | readable (pending : List Char)
  deriving DecidableEq

/-- The outcome of one `recv` call: the returned count and the bytes copied
to the start of the caller's buffer. -/
structure RecvResult where
  ret : Int
  data : List Char
  deriving DecidableEq

/-- The call `recv(fd, buf, len, 0)` on a blocking stream socket: at most
`len` of the pending bytes are copied and their count is returned. -/
def recv_call (e : RecvEnv) (len : Nat) : RecvResult :=
  match e with
  | .error => ⟨-1, []⟩
  | .closed => ⟨0, []⟩
  | .readable pending => ⟨((pending.take len).length : Nat), pending.take len⟩

/-- System calls as they appear in a process trace. -/
inductive Event where
  | socket (ret : Int)
  | setsockopt (fd : Int) (ret : Int)
  | bind (fd : Int) (port : Int) (ret : Int)
  | listen (fd : Int) (backlog : Nat) (ret : Int)
  | accept (fd : Int) (ret : Int)
  | connect (fd : Int) (ip : List Char) (port : Int) (ret : Int)
  | recv (fd : Int) (len : Nat) (ret : Int)
  | send (fd : Int) (payload : List Char) (ret : Int)
  | close (fd : Int)
  deriving DecidableEq

/-- How a process stands at the end of the script. -/
inductive Exit where
  /-- `main` returned this code -/
  | code (n : Int)
  /-- the process is still running, blocked in a call the script leaves open -/
  | running
  /-- an exception left `main`: `std::terminate` aborts the process -/
  | terminate
  deriving DecidableEq

/-- The calls a process made and how it ended. -/
structure ProcessResult where
  trace : List Event
  exit : Exit
  deriving DecidableEq

/-- How a modelled function stands at the end of the script. -/
inductive Outcome where
  /-- the function returned -/
  | returned
  /-- the script is exhausted: the code is blocked in a system call -/
  | blocked
  /-- an array was indexed outside its bounds -/
  | outOfBounds
  deriving DecidableEq

/-! ## server.cpp -/

/-- Line 13: `constexpr int kBacklog = 10`. -/
def kBacklog : Nat := 10

/-- Line 14: `constexpr size_t kBufferSize = 1024`. -/
def kBufferSize : Nat := 1024

/-- Lines 16-47: the class `FileDescriptor`, owner of one descriptor. -/
structure FileDescriptor where
  fd_ : Int := -1
  deriving DecidableEq

/-- Line 43: `get`. -/
def FileDescriptor.get (self : FileDescriptor) : Int := self.fd_

/-- Lines 19-23: the destructor closes a descriptor that is not negative. -/
def FileDescriptor.destroy (self : FileDescriptor) : List Event :=
  if self.fd_ ≥ 0 then [.close self.fd_] else []

/-- Lines 32-41: move assignment between two distinct objects; the calls
made, the new value of the target and the new value of the source. -/
def FileDescriptor.move_assign (self other : FileDescriptor) :
    List Event × FileDescriptor × FileDescriptor :=
  ((if self.fd_ ≥ 0 then [.close self.fd_] else []), ⟨other.fd_⟩, ⟨-1⟩)

/-- The largest `long` (LP64). -/
def LONG_MAX : Int := 2 ^ 63 - 1

/-- The smallest `long` (LP64). -/
def LONG_MIN : Int := -(2 ^ 63)

/-- The largest `int`. -/
def INT_MAX : Int := 2 ^ 31 - 1

/-- The smallest `int`. -/
def INT_MIN : Int := -(2 ^ 31)

/-- The function `isspace` of the C locale. -/
def isspace (c : Char) : Bool :=
  c = ' ' || c = '\t' || c = '\n' || c = Char.ofNat 11 || c = Char.ofNat 12 || c = '\r'

/-- The function `isdigit`. -/
def isdigit (c : Char) : Bool := '0' ≤ c && c ≤ '9'

/-- The number a run of decimal digits denotes. -/
def digitsValue (digits : List Char) : Nat :=
  digits.foldl (fun acc c => 10 * acc + (c.toNat - '0'.toNat)) 0

/-- What `strtol(nptr, &end_ptr, 10)` leaves behind: the returned value, the
offset of `end_ptr` from `nptr`, and whether `errno` is `ERANGE`. -/
structure StrtolResult where
  value : Int
  endOff : Nat
  erange : Bool
  deriving DecidableEq

/-- The C library function `strtol` in base 10 (ISO C 7.22.1.4): white space
is skipped, one sign is accepted, the longest run of digits is converted;
without a digit nothing is converted and `end_ptr` is `nptr`; a value outside
`long` is clamped and sets `ERANGE`. -/
def strtol (nptr : List Char) : StrtolResult :=
  let ws := nptr.takeWhile isspace
  let s1 := nptr.dropWhile isspace
  let negative := s1.head? = some '-'
  let sign := if s1.head? = some '-' ∨ s1.head? = some '+' then 1 else 0
  let digits := (s1.drop sign).takeWhile isdigit
  if digits = [] then ⟨0, 0, false⟩
  else
    let v : Int := if negative then -(digitsValue digits : Int) else (digitsValue digits : Int)
    let endOff := ws.length + sign + digits.length
    if v > LONG_MAX then ⟨LONG_MAX, endOff, true⟩
    else if v < LONG_MIN then ⟨LONG_MIN, endOff, true⟩
    else ⟨v, endOff, false⟩

/-- Lines 49-67: `parse_port`; `some port` stands for `true` with `port`
stored in `*port_out`.  Both pointers are non-null at the only call. -/
def parse_port (raw_port : List Char) : Option Int :=
  let r := strtol raw_port
  let parsed := r.value
  if r.erange ∨ r.endOff = 0 ∨ raw_port.drop r.endOff ≠ [] then none
  else if parsed ≤ 0 ∨ parsed > 65535 then none
  else some parsed

/-- What the four calls of `create_listening_socket` return. -/
structure ListenEnv where
  socketRet : Int
  setsockoptRet : Int
  bindRet : Int
  listenRet : Int
  deriving DecidableEq

/-- Lines 69-103: `create_listening_socket`; the calls made, the returned
flag, and the value of `*server_socket_out` afterwards. -/
def create_listening_socket (port : Int) (server_socket_out : FileDescriptor)
    (env : ListenEnv) : List Event × Bool × FileDescriptor :=
  let server_fd : FileDescriptor := ⟨env.socketRet⟩
  let t0 := [Event.socket env.socketRet]
  if server_fd.get < 0 then (t0 ++ server_fd.destroy, false, server_socket_out)
  else
    let t1 := t0 ++ [.setsockopt server_fd.get env.setsockoptRet]
    if env.setsockoptRet < 0 then (t1 ++ server_fd.destroy, false, server_socket_out)
    else
      let t2 := t1 ++ [.bind server_fd.get (port % 65536) env.bindRet]
      if env.bindRet < 0 then (t2 ++ server_fd.destroy, false, server_socket_out)
      else
        let t3 := t2 ++ [.listen server_fd.get kBacklog env.listenRet]
        if env.listenRet < 0 then (t3 ++ server_fd.destroy, false, server_socket_out)
        else
          let m := server_socket_out.move_assign server_fd
          (t3 ++ m.1 ++ m.2.2.destroy, true, m.2.1)

/-- The terminator `'\0'`. -/
def NUL : Char := Char.ofNat 0

/-- The assignment `buffer[i] = c` on an array: `none` when `i` is not an
index of the array. -/
def store (buffer : List Char) (i : Nat) (c : Char) : Option (List Char) :=
  if i < buffer.length then some (buffer.set i c) else none

/-- The bytes `recv` copied overwrite the start of the buffer. -/
def fill (buffer : List Char) (data : List Char) : List Char :=
  data ++ buffer.drop data.length

/-- The conversion `std::string(const char*)`: the characters before the
first NUL. -/
def c_str (buffer : List Char) : List Char :=
  buffer.takeWhile (fun c => c != NUL)

/-- The environment of one iteration of the loop of `handle_client`. -/
structure IterEnv where
  /-- what the `recv` of this iteration finds -/
  recv : RecvEnv
  /-- what the `send` of this iteration returns, when one is made -/
  sendRet : Int
  deriving DecidableEq

/-- The result of a session: the calls made, how it stands, and the buffer. -/
structure SessionResult where
  trace : List Event
  outcome : Outcome
  buffer : List Char
  deriving DecidableEq

/-- Lines 110-138: the `while (true)` loop of `handle_client` over the
local `buffer`, one script entry per iteration. -/
def handle_client_loop (client_fd : Int) : List Char → List IterEnv → SessionResult
  | buffer, [] => ⟨[], .blocked, buffer⟩
  | buffer, env :: rest =>
    let r := recv_call env.recv (kBufferSize - 1)
    let bytes_received := r.ret
    let buffer := fill buffer r.data
    let received := Event.recv client_fd (kBufferSize - 1) bytes_received
    if bytes_received < 0 then
      ⟨[received], .returned, buffer⟩
    else if bytes_received = 0 then
      ⟨[received], .returned, buffer⟩
    else
      match store buffer bytes_received.toNat NUL with
      | none => ⟨[received], .outOfBounds, buffer⟩
      | some buffer =>
        let message := c_str buffer
        if message = "exit\n".toList then
          let goodbye := "Goodbye.\n".toList
          ⟨[received, .send client_fd goodbye env.sendRet], .returned, buffer⟩
        else
          let response := "Echo: ".toList ++ message
          let sent := Event.send client_fd response env.sendRet
          if env.sendRet < 0 then
            ⟨[received, sent], .returned, buffer⟩
          else
            let s := handle_client_loop client_fd buffer rest
            ⟨received :: sent :: s.trace, s.outcome, s.buffer⟩

/-- Line 108: `char buffer[kBufferSize]` is not initialised; `garbage` gives
the value each cell happens to hold. -/
def uninitialized (garbage : Nat → Char) : List Char :=
  (List.range kBufferSize).map garbage

/-- Lines 105-139: `handle_client`.  The peer address is used for console
output only. -/
def handle_client (client_fd : Int) (garbage : Nat → Char) (script : List IterEnv) :
    SessionResult :=
  handle_client_loop client_fd (uninitialized garbage) script

/-- The environment of one iteration of the accept loop. -/
structure AcceptEnv where
  /-- what `accept` returns -/
  ret : Int
  /-- the contents of the stack where `handle_client` puts its buffer -/
  garbage : Nat → Char
  /-- the behaviour of the peer during the session -/
  session : List IterEnv

/-- Lines 164-181: the `while (true)` loop of `main`, one script entry per
iteration.  The loop has no exit; the trace ends where the script ends or
where a session does not return. -/
def accept_loop (server_fd : Int) : List AcceptEnv → List Event
  | [] => []
  | a :: rest =>
    let raw_client_fd := a.ret
    let accepted := Event.accept server_fd raw_client_fd
    if raw_client_fd < 0 then
      accepted :: accept_loop server_fd rest
    else
      let client_fd : FileDescriptor := ⟨raw_client_fd⟩
      let s := handle_client client_fd.get a.garbage a.session
      match s.outcome with
      | .returned => accepted :: (s.trace ++ client_fd.destroy ++ accept_loop server_fd rest)
      | _ => accepted :: s.trace

/-- The environment of the server process. -/
structure ServerEnv where
  listen : ListenEnv
  accepts : List AcceptEnv

/-- Lines 143-182 of server.cpp: `main`; `argc` is the length of `argv`. -/
def server_main (argv : List (List Char)) (env : ServerEnv) : ProcessResult :=
  if argv.length ≠ 2 then ⟨[], .code 1⟩
  else
    match parse_port (argv.getD 1 []) with
    | none => ⟨[], .code 1⟩
    | some port =>
      let server_socket : FileDescriptor := {}
      let c := create_listening_socket port server_socket env.listen
      if !c.2.1 then ⟨c.1 ++ c.2.2.destroy, .code 1⟩
      else ⟨c.1 ++ accept_loop c.2.2.get env.accepts, .running⟩

/-! ## Connection handles of the accept loop -/

/-- A connection handle: the descriptor number and the ordinal of the
successful `accept` that produced it. -/
structure Handle where
  serial : Nat
  fd : Int
  deriving DecidableEq

/-- The connection handles of the server: those open, those closed, and the
number of connections accepted so far. -/
structure Conns where
  opened : List Handle
  closed : List Handle
  accepted : Nat
  deriving DecidableEq

/-- The state before the first `accept`. -/
def Conns.init : Conns := ⟨[], [], 0⟩

/-- The effect of one system call on the connection handles: a successful
`accept` opens a new handle, `close` closes the open handles of that
descriptor, every other call leaves them as they are. -/
def Conns.step (s : Conns) : Event → Conns
  | .accept _ ret =>
    if ret < 0 then s
    else ⟨⟨s.accepted, ret⟩ :: s.opened, s.closed, s.accepted + 1⟩
  | .close fd =>
    ⟨s.opened.filter (fun h => h.fd ≠ fd), s.closed ++ s.opened.filter (fun h => h.fd = fd),
      s.accepted⟩
  | _ => s

/-- The state after a sequence of calls. -/
def Conns.replay (s : Conns) (t : List Event) : Conns := t.foldl Conns.step s

/-- The descriptor an I/O call reads from or writes to. -/
def Event.ioTarget : Event → Option Int
  | .recv fd _ _ => some fd
  | .send fd _ _ => some fd
  | _ => none

/-! ## client.cpp -/

/-- The result of `std::stoi(str)`: the value, or the exception thrown. -/
inductive StoiResult where
  | value (v : Int)
  | invalid_argument
  | out_of_range
  deriving DecidableEq

/-- The C++ library function `std::stoi` in base 10: `strtol`, then
`std::invalid_argument` when nothing was converted and `std::out_of_range`
when the value does not fit an `int`; characters after the number are
left unread. -/
def stoi (str : List Char) : StoiResult :=
  let r := strtol str
  if r.endOff = 0 then .invalid_argument
  else if r.erange ∨ r.value < INT_MIN ∨ r.value > INT_MAX then .out_of_range
  else .value r.value

/-- What `std::getline(std::cin, input)` finds. -/
inductive Getline where
  /-- end of input -/
  | eof
  /-- a line, without its newline -/
  | line (text : List Char)
  deriving DecidableEq

/-- The environment of one iteration of the loop of the client. -/
structure ClientIter where
  input : Getline
  sendRet : Int
  recv : RecvEnv
  deriving DecidableEq

/-- Lines 51-81 of client.cpp: the `while (true)` loop; the calls made and
whether the loop was left.  The received bytes go to the console only. -/
def client_loop (client_fd : Int) : List ClientIter → List Event × Bool
  | [] => ([], false)
  | it :: rest =>
    match it.input with
    | .eof => ([], true)
    | .line input =>
      if input = "exit".toList then ([], true)
      else
        let input := input ++ ['\n']
        let sent := it.sendRet
        let sending := Event.send client_fd input sent
        if sent < 0 then ([sending], true)
        else
          let r := recv_call it.recv (1024 - 1)
          let receiving := Event.recv client_fd (1024 - 1) r.ret
          if r.ret < 0 then ([sending, receiving], true)
          else if r.ret = 0 then ([sending, receiving], true)
          else
            let l := client_loop client_fd rest
            (sending :: receiving :: l.1, l.2)

/-- The environment of the client process. -/
structure ClientEnv where
  socketRet : Int
  /-- the result of `inet_pton(AF_INET, ip, ...)` for each text -/
  inet_pton : List Char → Int
  connectRet : Int
  console : List ClientIter

/-- Lines 9-86 of client.cpp: `main`; `argc` is the length of `argv`. -/
def client_main (argv : List (List Char)) (env : ClientEnv) : ProcessResult :=
  if argv.length ≠ 3 then ⟨[], .code 1⟩
  else
    let server_ip := argv.getD 1 []
    match stoi (argv.getD 2 []) with
    | .invalid_argument => ⟨[], .terminate⟩
    | .out_of_range => ⟨[], .terminate⟩
    | .value port =>
      if port ≤ 0 ∨ port > 65535 then ⟨[], .code 1⟩
      else
        let client_fd := env.socketRet
        let t0 := [Event.socket client_fd]
        if client_fd < 0 then ⟨t0, .code 1⟩
        else if env.inet_pton server_ip ≤ 0 then ⟨t0 ++ [.close client_fd], .code 1⟩
        else
          let t1 := t0 ++ [.connect client_fd server_ip (port % 65536) env.connectRet]
          if env.connectRet < 0 then ⟨t1 ++ [.close client_fd], .code 1⟩
          else
            let l := client_loop client_fd env.console
            if l.2 then ⟨t1 ++ l.1 ++ [.close client_fd], .code 0⟩
            else ⟨t1 ++ l.1, .running⟩

/-! ## Concrete inputs -/

/-- A stack that holds the letter z everywhere. -/
def zGarbage : Nat → Char := fun _ => 'z'

/-- An iteration that receives the line hello; its echo is sent whole. -/
def helloIter : IterEnv := ⟨.readable "hello\n".toList, 12⟩

/-- Three received bytes with a zero byte in the middle. -/
def nulMessage : List Char := ['a', NUL, 'b']

/-- A line of 1024 letters without a newline. -/
def line1024 : List Char := List.replicate 1024 'a'

/-- A client environment in which every set-up call succeeds. -/
def loopbackEnv (console : List ClientIter) : ClientEnv := ⟨3, fun _ => 1, 0, console⟩

/-- An iteration in which the operator types hi and the echo arrives. -/
def hiIter : ClientIter := ⟨.line "hi".toList, 3, .readable "Echo: hi\n".toList⟩

/-- An iteration in which the operator types exit. -/
def exitIter : ClientIter := ⟨.line "exit".toList, 5, .closed⟩

/-! ## Auxiliary definitions for the proofs -/

/-- The buffer of `handle_client` after `data` was received into `buffer` and
the terminator was written behind it. -/
def terminated (buffer data : List Char) : List Char :=
  data ++ NUL :: buffer.drop (data.length + 1)

/-- What holds of the connection handles `s` when the call `next` is about
to be made: at most one handle is open; an `accept` finds none open; a
`recv` or `send` goes to the one open handle, which was never closed; a
`close` closes the one open handle. -/
def HandlesOk (s : Conns) (next : Option Event) : Prop :=
  s.opened.length ≤ 1 ∧
  (∀ l ret, next = some (.accept l ret) → s.opened = []) ∧
  (∀ fd, next.bind Event.ioTarget = some fd →
    ∃ h, s.opened = [h] ∧ h.fd = fd ∧ h ∉ s.closed) ∧
  (∀ fd, next = some (.close fd) → ∃ h, s.opened = [h] ∧ h.fd = fd)

/-! ## Lemmas: the receive buffer -/

theorem recv_call_length (e : RecvEnv) (len : Nat) :
    (recv_call e len).data.length = (recv_call e len).ret.toNat := by
  cases e with
  | error => simp [recv_call]
  | closed => simp [recv_call]
  | readable p => simp only [recv_call, Int.toNat_ofNat]

theorem recv_call_le (e : RecvEnv) (len : Nat) : (recv_call e len).ret ≤ len := by
  cases e with
  | error => simp [recv_call]; omega
  | closed => simp [recv_call]
  | readable p => simp [recv_call]

theorem recv_call_data_le (e : RecvEnv) (len : Nat) : (recv_call e len).data.length ≤ len := by
  cases e <;> simp [recv_call]

theorem fill_length (buffer data : List Char) (h : data.length ≤ buffer.length) :
    (fill buffer data).length = buffer.length := by
  simp [fill]; omega

theorem store_fill (buffer data : List Char) (h : data.length < buffer.length) :
    store (fill buffer data) data.length NUL
      = some (data ++ NUL :: buffer.drop (data.length + 1)) := by
  have hl : data.length < (fill buffer data).length := by
    rw [fill_length _ _ (Nat.le_of_lt h)]; exact h
  simp only [store, hl, if_true, fill]
  rw [List.set_append_right _ _ (Nat.le_refl _)]
  simp only [Nat.sub_self]
  cases hd : buffer.drop data.length with
  | nil =>
    have := congrArg List.length hd
    simp at this; omega
  | cons x xs =>
    simp only [List.set_cons_zero]
    have : List.drop (data.length + 1) buffer = (List.drop data.length buffer).drop 1 := by
      simp [List.drop_drop, Nat.add_comm]
    rw [this, hd]; simp

theorem c_str_append_nul (data rest : List Char) :
    c_str (data ++ NUL :: rest) = c_str data := by
  induction data with
  | nil => simp [c_str, List.takeWhile]
  | cons x xs ih =>
    simp only [c_str, List.cons_append, List.takeWhile_cons] at *
    split <;> simp_all

theorem c_str_eq_self (data : List Char) (h : NUL ∉ data) : c_str data = data := by
  induction data with
  | nil => rfl
  | cons x xs ih =>
    simp only [List.mem_cons, not_or] at h
    have hx : (x != NUL) = true := by simpa using fun e => h.1 e.symm
    simp only [c_str, List.takeWhile_cons, hx, if_true] at *
    rw [ih h.2]

theorem c_str_length_le (data : List Char) : (c_str data).length ≤ data.length := by
  induction data with
  | nil => simp [c_str]
  | cons x xs ih =>
    simp only [c_str, List.takeWhile_cons] at *
    split
    · simp; omega
    · simp

theorem terminated_length (buffer data : List Char) (h : data.length < buffer.length) :
    (terminated buffer data).length = buffer.length := by
  simp [terminated]; omega

theorem loop_cons (fd : Int) (buffer : List Char) (env : IterEnv) (rest : List IterEnv)
    (hb : buffer.length = kBufferSize) :
    handle_client_loop fd buffer (env :: rest) =
      if (recv_call env.recv (kBufferSize - 1)).ret ≤ 0 then
        ⟨[.recv fd (kBufferSize - 1) (recv_call env.recv (kBufferSize - 1)).ret], .returned,
          fill buffer (recv_call env.recv (kBufferSize - 1)).data⟩
      else if c_str (recv_call env.recv (kBufferSize - 1)).data = "exit\n".toList then
        ⟨[.recv fd (kBufferSize - 1) (recv_call env.recv (kBufferSize - 1)).ret,
          .send fd "Goodbye.\n".toList env.sendRet], .returned,
          terminated buffer (recv_call env.recv (kBufferSize - 1)).data⟩
      else if env.sendRet < 0 then
        ⟨[.recv fd (kBufferSize - 1) (recv_call env.recv (kBufferSize - 1)).ret,
          .send fd ("Echo: ".toList ++ c_str (recv_call env.recv (kBufferSize - 1)).data)
            env.sendRet], .returned,
          terminated buffer (recv_call env.recv (kBufferSize - 1)).data⟩
      else
        ⟨.recv fd (kBufferSize - 1) (recv_call env.recv (kBufferSize - 1)).ret
          :: .send fd ("Echo: ".toList ++ c_str (recv_call env.recv (kBufferSize - 1)).data)
            env.sendRet
          :: (handle_client_loop fd
                (terminated buffer (recv_call env.recv (kBufferSize - 1)).data) rest).trace,
          (handle_client_loop fd
                (terminated buffer (recv_call env.recv (kBufferSize - 1)).data) rest).outcome,
          (handle_client_loop fd
                (terminated buffer (recv_call env.recv (kBufferSize - 1)).data) rest).buffer⟩ := by
  generalize hr : recv_call env.recv (kBufferSize - 1) = r
  have hlen : r.data.length = r.ret.toNat := by rw [← hr]; exact recv_call_length _ _
  have hle : r.data.length ≤ kBufferSize - 1 := by rw [← hr]; exact recv_call_data_le _ _
  have hlt : r.data.length < buffer.length := by rw [hb]; simp [kBufferSize] at hle ⊢; omega
  rw [handle_client_loop]
  simp only [hr]
  by_cases h0 : r.ret ≤ 0
  · rw [if_pos h0]
    by_cases hneg : r.ret < 0
    · rw [if_pos hneg]
    · rw [if_neg hneg, if_pos (by omega)]
  · rw [if_neg h0, if_neg (by omega), if_neg (by omega)]
    rw [← hlen, store_fill buffer r.data hlt]
    simp only [c_str_append_nul, terminated]

theorem uninitialized_length (garbage : Nat → Char) :
    (uninitialized garbage).length = kBufferSize := by
  simp [uninitialized]

theorem terminated_recv_length (buffer : List Char) (e : RecvEnv)
    (hb : buffer.length = kBufferSize) :
    (terminated buffer (recv_call e (kBufferSize - 1)).data).length = kBufferSize := by
  rw [terminated_length, hb]
  have := recv_call_data_le e (kBufferSize - 1)
  rw [hb]; simp [kBufferSize] at this ⊢; omega

theorem loop_buffer_length (fd : Int) (script : List IterEnv) :
    ∀ buffer : List Char, buffer.length = kBufferSize →
      (handle_client_loop fd buffer script).buffer.length = kBufferSize := by
  induction script with
  | nil => intro buffer hb; simpa [handle_client_loop] using hb
  | cons env rest ih =>
    intro buffer hb
    rw [loop_cons fd buffer env rest hb]
    have hd := recv_call_data_le env.recv (kBufferSize - 1)
    split_ifs
    · simp only; rw [fill_length, hb]; rw [hb]; simp [kBufferSize] at hd ⊢; omega
    · exact terminated_recv_length buffer env.recv hb
    · exact terminated_recv_length buffer env.recv hb
    · exact ih _ (terminated_recv_length buffer env.recv hb)

theorem loop_append (fd : Int) (pre rest : List IterEnv) :
    ∀ buffer : List Char, buffer.length = kBufferSize →
      (handle_client_loop fd buffer pre).outcome = .blocked →
      handle_client_loop fd buffer (pre ++ rest) =
        ⟨(handle_client_loop fd buffer pre).trace
            ++ (handle_client_loop fd (handle_client_loop fd buffer pre).buffer rest).trace,
          (handle_client_loop fd (handle_client_loop fd buffer pre).buffer rest).outcome,
          (handle_client_loop fd (handle_client_loop fd buffer pre).buffer rest).buffer⟩ := by
  induction pre with
  | nil => intro buffer _ _; simp [handle_client_loop]
  | cons env pre ih =>
    intro buffer hb hrun
    rw [loop_cons fd buffer env pre hb] at hrun
    rw [List.cons_append, loop_cons fd buffer env (pre ++ rest) hb, loop_cons fd buffer env pre hb]
    split_ifs at hrun ⊢
    rw [ih _ (terminated_recv_length buffer env.recv hb) hrun]
    simp

/-! ## Lemmas: sessions and the accept loop -/

/-- A session that is still receiving after `pre` goes on from the buffer
it has reached. -/
theorem session_step (fd : Int) (garbage : Nat → Char) (pre rest : List IterEnv)
    (hrun : (handle_client fd garbage pre).outcome = .blocked) :
    (handle_client fd garbage pre).buffer.length = kBufferSize ∧
    handle_client fd garbage (pre ++ rest) =
      ⟨(handle_client fd garbage pre).trace
          ++ (handle_client_loop fd (handle_client fd garbage pre).buffer rest).trace,
        (handle_client_loop fd (handle_client fd garbage pre).buffer rest).outcome,
        (handle_client_loop fd (handle_client fd garbage pre).buffer rest).buffer⟩ :=
  ⟨loop_buffer_length fd pre _ (uninitialized_length garbage),
    loop_append fd pre rest _ (uninitialized_length garbage) hrun⟩

theorem accept_loop_failed (server_fd : Int) (a : AcceptEnv) (rest : List AcceptEnv)
    (h : a.ret < 0) :
    accept_loop server_fd (a :: rest) = .accept server_fd a.ret :: accept_loop server_fd rest := by
  rw [accept_loop]; simp [h]

theorem accept_loop_returned (server_fd : Int) (a : AcceptEnv) (rest : List AcceptEnv)
    (h : 0 ≤ a.ret) (hret : (handle_client a.ret a.garbage a.session).outcome = .returned) :
    accept_loop server_fd (a :: rest) =
      .accept server_fd a.ret ::
        ((handle_client a.ret a.garbage a.session).trace ++ [.close a.ret]
          ++ accept_loop server_fd rest) := by
  rw [accept_loop]
  simp only [FileDescriptor.get, FileDescriptor.destroy, hret, not_lt.mpr h, if_false,
    ge_iff_le, h, if_true]

theorem accept_loop_head (server_fd : Int) (a : AcceptEnv) (rest : List AcceptEnv) :
    (accept_loop server_fd (a :: rest)).head? = some (.accept server_fd a.ret) := by
  rw [accept_loop]
  by_cases h : a.ret < 0
  · simp [h]
  · simp only [h, if_false]; split <;> rfl

/-- After an echo whose send succeeded the session waits for the next
message. -/
theorem session_echo_running (fd : Int) (garbage : Nat → Char) (pre : List IterEnv)
    (env : IterEnv) (hrun : (handle_client fd garbage pre).outcome = .blocked)
    (hpos : 0 < (recv_call env.recv (kBufferSize - 1)).ret)
    (hne : c_str (recv_call env.recv (kBufferSize - 1)).data ≠ "exit\n".toList)
    (hsend : 0 ≤ env.sendRet) :
    (handle_client fd garbage (pre ++ [env])).outcome = .blocked := by
  obtain ⟨hb, heq⟩ := session_step fd garbage pre [env] hrun
  rw [heq, loop_cons fd _ env [] hb, if_neg (not_le.mpr hpos), if_neg hne,
    if_neg (not_lt.mpr hsend)]
  rfl

/-- The calls of one iteration that receives a message other than the
termination request. -/
theorem session_echo_trace (fd : Int) (garbage : Nat → Char) (pre post : List IterEnv)
    (env : IterEnv) (hrun : (handle_client fd garbage pre).outcome = .blocked)
    (hpos : 0 < (recv_call env.recv (kBufferSize - 1)).ret)
    (hne : c_str (recv_call env.recv (kBufferSize - 1)).data ≠ "exit\n".toList) :
    (handle_client fd garbage (pre ++ env :: post)).trace =
      (handle_client fd garbage pre).trace ++
        (.recv fd (kBufferSize - 1) (recv_call env.recv (kBufferSize - 1)).ret
          :: .send fd ("Echo: ".toList ++ c_str (recv_call env.recv (kBufferSize - 1)).data)
              env.sendRet
          :: (if env.sendRet < 0 then []
              else (handle_client_loop fd
                (terminated (handle_client fd garbage pre).buffer
                  (recv_call env.recv (kBufferSize - 1)).data) post).trace)) := by
  obtain ⟨hb, heq⟩ := session_step fd garbage pre (env :: post) hrun
  rw [heq, loop_cons fd _ env post hb, if_neg (not_le.mpr hpos), if_neg hne]
  split_ifs <;> rfl

theorem recv_call_data_le_1023 (e : RecvEnv) :
    (recv_call e (kBufferSize - 1)).data.length ≤ 1023 :=
  recv_call_data_le e (kBufferSize - 1)

theorem recv_call_le_1023 (e : RecvEnv) : (recv_call e (kBufferSize - 1)).ret ≤ 1023 :=
  recv_call_le e (kBufferSize - 1)

theorem recv_line1024 :
    recv_call (.readable line1024) (kBufferSize - 1) = ⟨1023, List.replicate 1023 'a'⟩ := by
  simp only [recv_call, line1024, List.take_replicate, List.length_replicate]
  rfl

theorem echo_length_le (e : RecvEnv) :
    ("Echo: ".toList ++ c_str (recv_call e (kBufferSize - 1)).data).length ≤ 6 + 1023 := by
  have h1 := c_str_length_le (recv_call e (kBufferSize - 1)).data
  have h2 := recv_call_data_le_1023 e
  rw [List.length_append]
  have h3 : "Echo: ".toList.length = 6 := rfl
  omega

/-- No session indexes its buffer out of bounds, and no payload it sends is
longer than the prefix and a full receive. -/
theorem loop_safe (fd : Int) (script : List IterEnv) :
    ∀ buffer : List Char, buffer.length = kBufferSize →
      (handle_client_loop fd buffer script).outcome ≠ .outOfBounds ∧
      ∀ (fd' : Int) (p : List Char) (r : Int),
        Event.send fd' p r ∈ (handle_client_loop fd buffer script).trace →
          p.length ≤ 6 + 1023 := by
  induction script with
  | nil => intro buffer _; simp [handle_client_loop]
  | cons env rest ih =>
    intro buffer hb
    rw [loop_cons fd buffer env rest hb]
    have hecho := echo_length_le env.recv
    obtain ⟨ih1, ih2⟩ := ih _ (terminated_recv_length buffer env.recv hb)
    split_ifs
    · simp
    · refine ⟨by simp, ?_⟩
      intro fd' p r hmem
      simp only [List.mem_cons, Event.send.injEq, List.mem_singleton, reduceCtorEq,
        false_or, List.not_mem_nil, or_false] at hmem
      rw [hmem.2.1]; decide
    · refine ⟨by simp, ?_⟩
      intro fd' p r hmem
      simp only [List.mem_cons, Event.send.injEq, List.mem_singleton, reduceCtorEq,
        false_or, List.not_mem_nil, or_false] at hmem
      rw [hmem.2.1]; exact hecho
    · refine ⟨ih1, ?_⟩
      intro fd' p r hmem
      simp only [List.mem_cons, Event.send.injEq, reduceCtorEq, false_or] at hmem
      rcases hmem with h | h
      · rw [h.2.1]; exact hecho
      · exact ih2 fd' p r h

/-- The calls of a script whose last iteration receives a message other than
the termination request. -/
theorem session_echo_last (fd : Int) (garbage : Nat → Char) (pre : List IterEnv)
    (env : IterEnv) (hrun : (handle_client fd garbage pre).outcome = .blocked)
    (hpos : 0 < (recv_call env.recv (kBufferSize - 1)).ret)
    (hne : c_str (recv_call env.recv (kBufferSize - 1)).data ≠ "exit\n".toList) :
    (handle_client fd garbage (pre ++ [env])).trace =
      (handle_client fd garbage pre).trace ++
        [.recv fd (kBufferSize - 1) (recv_call env.recv (kBufferSize - 1)).ret,
         .send fd ("Echo: ".toList ++ c_str (recv_call env.recv (kBufferSize - 1)).data)
            env.sendRet] := by
  rw [session_echo_trace fd garbage pre [] env hrun hpos hne]
  split_ifs <;> simp [handle_client_loop]

theorem ne_exit_of_length (l : List Char) (h : l.length ≠ 5) : l ≠ "exit\n".toList :=
  fun e => h (e ▸ rfl)

theorem line1024_length : line1024.length = 1024 := by
  rw [line1024, List.length_replicate]

theorem c_str_line1023_ne_exit : c_str (List.replicate 1023 'a') ≠ "exit\n".toList := by
  apply ne_exit_of_length
  rw [c_str_eq_self _ (fun h => absurd (List.eq_of_mem_replicate h) (by decide)),
    List.length_replicate]
  decide

theorem c_str_replicate_a (n : Nat) : c_str (List.replicate n 'a') = List.replicate n 'a' := by
  apply c_str_eq_self
  intro h
  exact absurd (List.eq_of_mem_replicate h) (by decide)

/-! ## Lemmas: connection handles -/

theorem loop_events (fd : Int) (script : List IterEnv) :
    ∀ buffer : List Char, buffer.length = kBufferSize →
      ∀ e ∈ (handle_client_loop fd buffer script).trace, e.ioTarget = some fd := by
  induction script with
  | nil => intro buffer _ e he; simp [handle_client_loop] at he
  | cons env rest ih =>
    intro buffer hb e he
    rw [loop_cons fd buffer env rest hb] at he
    have ih' := ih _ (terminated_recv_length buffer env.recv hb)
    split_ifs at he
    · simp only [List.mem_singleton] at he; rw [he]; rfl
    · simp only [List.mem_cons, List.mem_singleton, List.not_mem_nil, or_false] at he
      rcases he with h | h <;> rw [h] <;> rfl
    · simp only [List.mem_cons, List.mem_singleton, List.not_mem_nil, or_false] at he
      rcases he with h | h <;> rw [h] <;> rfl
    · simp only [List.mem_cons] at he
      rcases he with h | h | h
      · rw [h]; rfl
      · rw [h]; rfl
      · exact ih' e h

theorem loop_outcome (fd : Int) (script : List IterEnv) (buffer : List Char)
    (hb : buffer.length = kBufferSize) :
    (handle_client_loop fd buffer script).outcome = .returned ∨
      (handle_client_loop fd buffer script).outcome = .blocked := by
  have h := (loop_safe fd script buffer hb).1
  cases ho : (handle_client_loop fd buffer script).outcome with
  | returned => exact Or.inl rfl
  | blocked => exact Or.inr rfl
  | outOfBounds => exact absurd ho h

theorem step_io (s : Conns) (e : Event) (fd : Int) (h : e.ioTarget = some fd) :
    s.step e = s := by
  cases e <;> simp [Event.ioTarget] at h <;> rfl

theorem replay_io (fd : Int) (t : List Event) (h : ∀ e ∈ t, e.ioTarget = some fd) :
    ∀ s : Conns, s.replay t = s := by
  induction t with
  | nil => intro s; rfl
  | cons e t ih =>
    intro s
    simp only [Conns.replay, List.foldl_cons]
    rw [step_io s e fd (h e (List.mem_cons_self _ _))]
    exact ih (fun e he => h e (List.mem_cons_of_mem _ he)) s

theorem replay_cons (s : Conns) (e : Event) (t : List Event) :
    s.replay (e :: t) = (s.step e).replay t := rfl

theorem replay_append (s : Conns) (t u : List Event) :
    s.replay (t ++ u) = (s.replay t).replay u := by
  simp [Conns.replay, List.foldl_append]

theorem handles_append (s : Conns) (t1 t2 : List Event)
    (h1 : ∀ n, n < t1.length → HandlesOk (s.replay (t1.take n)) (t1[n]?))
    (h2 : ∀ n, HandlesOk ((s.replay t1).replay (t2.take n)) (t2[n]?)) :
    ∀ n, HandlesOk (s.replay ((t1 ++ t2).take n)) ((t1 ++ t2)[n]?) := by
  intro n
  by_cases hn : n < t1.length
  · rw [List.take_append_of_le_length (Nat.le_of_lt hn), List.getElem?_append_left hn]
    exact h1 n hn
  · have hle : t1.length ≤ n := not_lt.mp hn
    rw [List.take_append_eq_append_take, List.take_of_length_le hle,
      List.getElem?_append_right hle, replay_append]
    exact h2 (n - t1.length)

/-- While a session runs, the handles stay as the accept left them. -/
theorem session_handles (s : Conns) (fd : Int) (t tail : List Event)
    (hio : ∀ e ∈ t, e.ioTarget = some fd)
    (htail : tail = [] ∨ tail = [.close fd])
    (hok : ∀ next : Option Event,
      (∀ l ret, next ≠ some (.accept l ret)) →
      (∀ fd', next.bind Event.ioTarget = some fd' → fd' = fd) →
      (∀ fd', next = some (.close fd') → fd' = fd) → HandlesOk s next) :
    ∀ n, n ≤ t.length → HandlesOk (s.replay ((t ++ tail).take n)) ((t ++ tail)[n]?) := by
  intro n hn
  rw [List.take_append_of_le_length hn,
    replay_io fd _ (fun e he => hio e (List.mem_of_mem_take he))]
  by_cases hlt : n < t.length
  · rw [List.getElem?_append_left hlt]
    obtain ⟨e, he⟩ : ∃ e, t[n]? = some e := ⟨t[n], List.getElem?_eq_getElem hlt⟩
    have hmem := hio e (List.getElem?_mem he)
    rw [he]
    apply hok
    · intro l ret h
      rw [Option.some.injEq] at h; rw [h] at hmem; simp [Event.ioTarget] at hmem
    · intro fd' h
      have hbind : (some e : Option Event).bind Event.ioTarget = e.ioTarget := rfl
      rw [hbind, hmem] at h
      exact (Option.some.inj h).symm
    · intro fd' h
      rw [Option.some.injEq] at h; rw [h] at hmem; simp [Event.ioTarget] at hmem
  · have hle : t.length ≤ n := not_lt.mp hlt
    rw [List.getElem?_append_right hle]
    have hz : n - t.length = 0 := by omega
    rw [hz]
    rcases htail with h | h <;> rw [h]
    · apply hok <;> simp
    · apply hok
      · intro l ret h; simp at h
      · intro fd' h; simp [Event.ioTarget] at h
      · intro fd' h; simp at h; exact h.symm

/-- An iteration of the accept loop that starts with no handle open keeps
the handles in order at every call of the trace. -/
theorem accept_loop_handles (server_fd : Int) (script : List AcceptEnv) :
    ∀ s : Conns, s.opened = [] → (∀ h ∈ s.closed, h.serial < s.accepted) →
      ∀ n : Nat, HandlesOk (s.replay ((accept_loop server_fd script).take n))
        ((accept_loop server_fd script)[n]?) := by
  induction script with
  | nil =>
    intro s ho _ n
    simp [accept_loop, Conns.replay, HandlesOk, ho]
  | cons a rest ih =>
    intro s ho hc n
    have hstart : ∀ ret, HandlesOk s (some (.accept server_fd ret)) := by
      intro ret
      refine ⟨by simp [ho], fun _ _ _ => ho, ?_, ?_⟩
      · intro fd h; simp [Event.ioTarget] at h
      · intro fd h; simp at h
    by_cases hneg : a.ret < 0
    · rw [accept_loop_failed server_fd a rest hneg]
      cases n with
      | zero => simpa [Conns.replay] using hstart a.ret
      | succ m =>
        rw [List.take_succ_cons, replay_cons, List.getElem?_cons_succ]
        have hs : s.step (.accept server_fd a.ret) = s := by simp [Conns.step, hneg]
        rw [hs]
        exact ih s ho hc m
    · have h0 : 0 ≤ a.ret := not_lt.mp hneg
      have hio : ∀ e ∈ (handle_client a.ret a.garbage a.session).trace,
          e.ioTarget = some a.ret :=
        loop_events a.ret a.session _ (uninitialized_length a.garbage)
      have hout : (handle_client a.ret a.garbage a.session).outcome = .returned ∨
          (handle_client a.ret a.garbage a.session).outcome = .blocked :=
        loop_outcome a.ret a.session _ (uninitialized_length a.garbage)
      -- the state while the session runs
      have hs1 : s.step (.accept server_fd a.ret)
          = ⟨[⟨s.accepted, a.ret⟩], s.closed, s.accepted + 1⟩ := by
        simp [Conns.step, hneg, ho]
      have hfresh : (⟨s.accepted, a.ret⟩ : Handle) ∉ s.closed := by
        intro hm; exact absurd (hc _ hm) (Nat.lt_irrefl _)
      have hin : ∀ next : Option Event,
          (∀ l ret, next ≠ some (.accept l ret)) →
          (∀ fd, next.bind Event.ioTarget = some fd → fd = a.ret) →
          (∀ fd, next = some (.close fd) → fd = a.ret) →
          HandlesOk ⟨[⟨s.accepted, a.ret⟩], s.closed, s.accepted + 1⟩ next := by
        intro next h1 h2 h3
        refine ⟨by simp, fun l ret h => absurd h (h1 l ret), ?_, ?_⟩
        · intro fd h; exact ⟨_, rfl, (h2 fd h).symm, hfresh⟩
        · intro fd h; exact ⟨_, rfl, (h3 fd h).symm⟩
      have hblock : ∀ tail : List Event, tail = [] ∨ tail = [.close a.ret] →
          ∀ n, n < (Event.accept server_fd a.ret ::
              ((handle_client a.ret a.garbage a.session).trace ++ tail)).length →
            HandlesOk (s.replay ((Event.accept server_fd a.ret ::
              ((handle_client a.ret a.garbage a.session).trace ++ tail)).take n))
              ((Event.accept server_fd a.ret ::
              ((handle_client a.ret a.garbage a.session).trace ++ tail))[n]?) := by
        intro tail htail n hn
        cases n with
        | zero => simpa [Conns.replay] using hstart a.ret
        | succ m =>
          rw [List.take_succ_cons, replay_cons, List.getElem?_cons_succ, hs1]
          by_cases hm : m ≤ (handle_client a.ret a.garbage a.session).trace.length
          · exact session_handles _ a.ret _ tail hio htail hin m hm
          · rcases htail with h | h
            · rw [h] at hn; simp at hn; omega
            · rw [h] at hn ⊢
              simp only [List.length_cons, List.length_append, List.length_nil] at hn
              have hm' : m = (handle_client a.ret a.garbage a.session).trace.length := by omega
              exact absurd (Nat.le_of_eq hm') hm
      rcases hout with hret | hblk
      · rw [accept_loop_returned server_fd a rest h0 hret]
        have hsplit : Event.accept server_fd a.ret ::
            ((handle_client a.ret a.garbage a.session).trace ++ [.close a.ret]
              ++ accept_loop server_fd rest) =
            (Event.accept server_fd a.ret ::
              ((handle_client a.ret a.garbage a.session).trace ++ [.close a.ret]))
              ++ accept_loop server_fd rest := by simp
        rw [hsplit]
        apply handles_append
        · exact hblock [.close a.ret] (Or.inr rfl)
        · have hs2 : s.replay (Event.accept server_fd a.ret ::
              ((handle_client a.ret a.garbage a.session).trace ++ [.close a.ret]))
              = ⟨[], s.closed ++ [⟨s.accepted, a.ret⟩], s.accepted + 1⟩ := by
            rw [replay_cons, hs1, replay_append, replay_io a.ret _ hio]
            simp [Conns.replay, Conns.step]
          rw [hs2]
          apply ih
          · rfl
          · intro h hmem
            simp only [List.mem_append, List.mem_singleton] at hmem
            rcases hmem with hm | hm
            · exact Nat.lt_succ_of_lt (hc h hm)
            · rw [hm]; exact Nat.lt_succ_self _
      · have hloop : accept_loop server_fd (a :: rest) =
            (Event.accept server_fd a.ret ::
              ((handle_client a.ret a.garbage a.session).trace ++ [])) ++ [] := by
          rw [accept_loop]
          simp only [hneg, if_false, FileDescriptor.get, hblk, List.append_nil]
        rw [hloop]
        apply handles_append
        · exact hblock [] (Or.inl rfl)
        · intro n
          rw [replay_cons, hs1, List.append_nil,
            replay_io a.ret _ hio]
          simp only [List.take_nil, List.getElem?_nil]
          apply hin <;> simp

/-! ## Lemmas: the port argument -/

theorem isdigit_not_space (c : Char) (h : isdigit c = true) : isspace c = false := by
  cases hs : isspace c with
  | false => rfl
  | true =>
    simp only [isspace, Bool.or_eq_true, decide_eq_true_eq] at hs
    rcases hs with ((((hs | hs) | hs) | hs) | hs) | hs <;> subst hs <;> revert h <;> decide

theorem isdigit_not_sign (c : Char) (h : isdigit c = true) : c ≠ '-' ∧ c ≠ '+' := by
  constructor <;> intro hs <;> subst hs <;> revert h <;> decide

theorem takeWhile_all {α : Type} (p : α → Bool) (l : List α) (h : ∀ c ∈ l, p c = true) :
    l.takeWhile p = l := by
  induction l with
  | nil => rfl
  | cons x xs ih =>
    rw [List.takeWhile_cons_of_pos (h x (List.mem_cons_self _ _)),
      ih (fun c hc => h c (List.mem_cons_of_mem _ hc))]

theorem takeWhile_append_stop {α : Type} (p : α → Bool) (l r : List α)
    (h : ∀ c ∈ l, p c = true) (hr : ∀ c, r.head? = some c → p c = false) :
    (l ++ r).takeWhile p = l ∧ (l ++ r).dropWhile p = r := by
  induction l with
  | nil =>
    cases r with
    | nil => exact ⟨rfl, rfl⟩
    | cons x xs =>
      have hx := hr x rfl
      simp [List.takeWhile_cons, List.dropWhile_cons, hx]
  | cons x xs ih =>
    have hx := h x (List.mem_cons_self _ _)
    obtain ⟨i1, i2⟩ := ih (fun c hc => h c (List.mem_cons_of_mem _ hc))
    simp [List.takeWhile_cons, List.dropWhile_cons, hx, i1, i2]

theorem takeWhile_mem {α : Type} (p : α → Bool) (l : List α) :
    ∀ c ∈ l.takeWhile p, p c = true := by
  intro c hc
  exact (List.mem_takeWhile_imp hc)

theorem strtol_of_parts (ws sign ds : List Char)
    (hws : ∀ c ∈ ws, isspace c = true) (hsign : sign = [] ∨ sign = ['+'])
    (hne : ds ≠ []) (hds : ∀ c ∈ ds, isdigit c = true)
    (hle : (digitsValue ds : Int) ≤ LONG_MAX) :
    strtol (ws ++ sign ++ ds) = ⟨digitsValue ds, (ws ++ sign ++ ds).length, false⟩ := by
  obtain ⟨d, ds', rfl⟩ := List.exists_cons_of_ne_nil hne
  have hd := hds d (List.mem_cons_self _ _)
  have hdsp := isdigit_not_space d hd
  obtain ⟨hdm, hdp⟩ := isdigit_not_sign d hd
  have htw : (d :: ds').takeWhile isdigit = d :: ds' := takeWhile_all _ _ hds
  have hnn : ¬ ((digitsValue (d :: ds') : Int) > LONG_MAX) := not_lt.mpr hle
  have hmin : ¬ ((digitsValue (d :: ds') : Int) < LONG_MIN) := by
    have : (0 : Int) ≤ (digitsValue (d :: ds') : Int) := Int.ofNat_nonneg _
    have h2 : LONG_MIN < 0 := by decide
    omega
  rcases hsign with rfl | rfl
  · have hstop := takeWhile_append_stop isspace ws (d :: ds') hws
      (by intro c hc; simp at hc; rw [← hc]; exact hdsp)
    simp only [List.append_nil]
    unfold strtol
    simp only [hstop.1, hstop.2, List.head?_cons, Option.some.injEq, hdm, hdp, or_self,
      if_false, List.drop_zero, htw, reduceCtorEq, hnn, hmin, List.length_append,
      Nat.add_zero]
  · have hstop := takeWhile_append_stop isspace ws ('+' :: d :: ds') hws
      (by intro c hc; simp at hc; rw [← hc]; decide)
    have hs : ws ++ ['+'] ++ d :: ds' = ws ++ '+' :: d :: ds' := by simp
    rw [hs]
    unfold strtol
    have hpm : ¬ ('+' = '-') := by decide
    simp only [hstop.1, hstop.2, List.head?_cons, Option.some.injEq, hpm, or_true, false_or,
      if_true, if_false, List.drop_succ_cons, List.drop_zero, htw, reduceCtorEq, hnn, hmin,
      List.length_append, List.length_cons]
    simp only [StrtolResult.mk.injEq, and_true, true_and]
    omega

theorem drop_parts (ws mid ds rem : List Char) :
    (ws ++ (mid ++ (ds ++ rem))).drop (ws.length + mid.length + ds.length) = rem := by
  have : ws ++ (mid ++ (ds ++ rem)) = (ws ++ mid ++ ds) ++ rem := by simp
  rw [this]
  have hl : ws.length + mid.length + ds.length = (ws ++ mid ++ ds).length := by
    simp only [List.length_append]
  rw [hl, List.drop_left]

/-- What a successful conversion of the digits `ds`, found behind the white
space `ws` and the sign characters `mid`, tells about the argument. -/
theorem parse_port_tail (ws mid ds rem : List Char) (neg : Prop) [Decidable neg] (p : Int)
    (h : (let v : Int := if neg then -(digitsValue ds : Int) else (digitsValue ds : Int)
          let r : StrtolResult :=
            if ds = [] then ⟨0, 0, false⟩
            else if v > LONG_MAX then ⟨LONG_MAX, ws.length + mid.length + ds.length, true⟩
            else if v < LONG_MIN then ⟨LONG_MIN, ws.length + mid.length + ds.length, true⟩
            else ⟨v, ws.length + mid.length + ds.length, false⟩
          if r.erange ∨ r.endOff = 0 ∨ (ws ++ (mid ++ (ds ++ rem))).drop r.endOff ≠ [] then none
          else if r.value ≤ 0 ∨ r.value > 65535 then none
          else some r.value) = some p) :
    ds ≠ [] ∧ rem = [] ∧ ¬ neg ∧ p = digitsValue ds ∧ 1 ≤ p ∧ p ≤ 65535 := by
  simp only at h
  by_cases hds : ds = []
  · simp [hds] at h
  · simp only [hds, if_false] at h
    by_cases h1 : (if neg then -(digitsValue ds : Int) else (digitsValue ds : Int)) > LONG_MAX
    · simp [h1] at h
    · simp only [h1, if_false] at h
      by_cases h2 : (if neg then -(digitsValue ds : Int) else (digitsValue ds : Int)) < LONG_MIN
      · simp [h2] at h
      · simp only [h2, if_false, drop_parts, Bool.false_eq_true, false_or] at h
        have hlen : ds.length ≠ 0 := fun e => hds (List.length_eq_zero.mp e)
        have hoff : ¬ (ws.length + mid.length + ds.length = 0) := by omega
        simp only [hoff, false_or, ne_eq, ite_not] at h
        by_cases hrem : rem = []
        · simp only [hrem, if_true] at h
          have hnn : (0 : Int) ≤ (digitsValue ds : Int) := Int.ofNat_nonneg _
          by_cases hneg : neg
          · simp only [hneg, if_true] at h
            split_ifs at h with h3
            exact absurd (Or.inl (by omega)) h3
          · simp only [hneg, if_false] at h
            split_ifs at h with h3
            rw [Option.some.injEq] at h
            exact ⟨hds, hrem, hneg, h.symm, by omega, by omega⟩
        · simp [hrem] at h

theorem parse_port_some_parts (s : List Char) (p : Int) (h : parse_port s = some p) :
    ∃ ws sign ds, s = ws ++ sign ++ ds ∧ (∀ c ∈ ws, isspace c = true) ∧
      (sign = [] ∨ sign = ['+']) ∧ ds ≠ [] ∧ (∀ c ∈ ds, isdigit c = true) ∧
      p = digitsValue ds ∧ 1 ≤ p ∧ p ≤ 65535 := by
  have hsplit := List.takeWhile_append_dropWhile isspace s
  have hws := takeWhile_mem isspace s
  unfold parse_port strtol at h
  simp only at h
  generalize s.takeWhile isspace = ws at h hsplit hws
  generalize s.dropWhile isspace = s1 at h hsplit
  subst hsplit
  cases s1 with
  | nil =>
    simp at h
  | cons c t =>
    have hdsplit := List.takeWhile_append_dropWhile isdigit t
    have hdig := takeWhile_mem isdigit t
    have hdsplit' := List.takeWhile_append_dropWhile isdigit (c :: t)
    have hdig' := takeWhile_mem isdigit (c :: t)
    by_cases hm : c = '-'
    · subst hm
      simp only [List.head?_cons, true_or, if_true, List.drop_succ_cons, List.drop_zero] at h
      generalize t.takeWhile isdigit = ds at h hdsplit hdig
      generalize t.dropWhile isdigit = rem at h hdsplit
      subst hdsplit
      have := parse_port_tail ws ['-'] ds rem True p (by simpa using h)
      exact absurd trivial this.2.2.1
    · by_cases hp : c = '+'
      · subst hp
        simp only [List.head?_cons, or_true, if_true, List.drop_succ_cons, List.drop_zero] at h
        generalize t.takeWhile isdigit = ds at h hdsplit hdig
        generalize t.dropWhile isdigit = rem at h hdsplit
        subst hdsplit
        have := parse_port_tail ws ['+'] ds rem False p (by simpa using h)
        obtain ⟨h1, h2, _, h4, h5, h6⟩ := this
        subst h2
        exact ⟨ws, ['+'], ds, by simp, hws, Or.inr rfl, h1, hdig, h4, h5, h6⟩
      · simp only [List.head?_cons, Option.some.injEq, hm, hp, or_self, if_false,
          List.drop_zero] at h
        generalize (c :: t).takeWhile isdigit = ds at h hdsplit' hdig'
        generalize (c :: t).dropWhile isdigit = rem at h hdsplit'
        rw [← hdsplit'] at h
        have := parse_port_tail ws [] ds rem False p (by simpa using h)
        obtain ⟨h1, h2, _, h4, h5, h6⟩ := this
        subst h2
        refine ⟨ws, [], ds, ?_, hws, Or.inl rfl, h1, hdig', h4, h5, h6⟩
        rw [← hdsplit']; simp

/-! ## Lemmas: the client loop -/

theorem client_loop_append (fd : Int) (pre rest : List ClientIter)
    (hrun : (client_loop fd pre).2 = false) :
    client_loop fd (pre ++ rest) =
      ((client_loop fd pre).1 ++ (client_loop fd rest).1, (client_loop fd rest).2) := by
  induction pre with
  | nil => simp [client_loop]
  | cons it pre ih =>
    simp only [List.cons_append, client_loop] at hrun ⊢
    cases hin : it.input with
    | eof => simp [hin] at hrun
    | line text =>
      simp only [hin] at hrun ⊢
      split_ifs at hrun ⊢
      simp only at hrun
      have ih' := ih hrun
      change client_loop fd (pre.append rest) = _ at ih'
      rw [ih']
      rfl

/-! ## The claims -/

/-- C1 (counterexample): a receive returns the three bytes a, NUL, b, which
are not the termination request; the server answers with the seven bytes
of Echo: a, not with the prefix followed by the three bytes received. -/
theorem echo_of_nul_message_truncated :
    recv_call (.readable nulMessage) (kBufferSize - 1) = ⟨3, nulMessage⟩ ∧
    nulMessage ≠ "exit\n".toList ∧
    (handle_client 4 zGarbage [⟨.readable nulMessage, 7⟩]).trace =
      [.recv 4 (kBufferSize - 1) 3, .send 4 "Echo: a".toList 7] ∧
    "Echo: a".toList ≠ "Echo: ".toList ++ nulMessage := by
  refine ⟨by decide, by decide, ?_, by decide⟩
  have h := session_echo_trace 4 zGarbage [] [] ⟨.readable nulMessage, 7⟩ rfl
    (by decide) (by decide)
  rw [List.nil_append] at h
  rw [h]
  decide

/-- C1 (amended): for every message returned by one successful receive of
`handle_client`, after any history that left the session receiving, if the
message cut before its first zero byte is not the termination request then
the calls made for it are that receive and one send whose payload is exactly
the prefix Echo: followed by the cut message, of length 6 plus the length of
the cut message; a message without a zero byte is not cut. -/
theorem echo_response_exact (fd : Int) (garbage : Nat → Char) (pre : List IterEnv)
    (env : IterEnv) (hrun : (handle_client fd garbage pre).outcome = .blocked)
    (hpos : 0 < (recv_call env.recv (kBufferSize - 1)).ret)
    (hne : c_str (recv_call env.recv (kBufferSize - 1)).data ≠ "exit\n".toList) :
    (handle_client fd garbage (pre ++ [env])).trace =
        (handle_client fd garbage pre).trace ++
          [.recv fd (kBufferSize - 1) (recv_call env.recv (kBufferSize - 1)).ret,
           .send fd ("Echo: ".toList ++ c_str (recv_call env.recv (kBufferSize - 1)).data)
              env.sendRet] ∧
      ("Echo: ".toList ++ c_str (recv_call env.recv (kBufferSize - 1)).data).length =
        6 + (c_str (recv_call env.recv (kBufferSize - 1)).data).length ∧
      (NUL ∉ (recv_call env.recv (kBufferSize - 1)).data →
        c_str (recv_call env.recv (kBufferSize - 1)).data =
          (recv_call env.recv (kBufferSize - 1)).data) := by
  refine ⟨?_, ?_, c_str_eq_self _⟩
  · exact session_echo_last fd garbage pre env hrun hpos hne
  · rw [List.length_append]; rfl

/-- C1 (amended), at a session that echoed hello and then receives a, NUL, b. -/
theorem echo_response_exact_witness :
    (handle_client 4 zGarbage [helloIter]).outcome = .blocked ∧
    0 < (recv_call (IterEnv.mk (.readable nulMessage) 7).recv (kBufferSize - 1)).ret ∧
    c_str (recv_call (IterEnv.mk (.readable nulMessage) 7).recv (kBufferSize - 1)).data
      ≠ "exit\n".toList ∧
    ((handle_client 4 zGarbage ([helloIter] ++ [⟨.readable nulMessage, 7⟩])).trace =
        (handle_client 4 zGarbage [helloIter]).trace ++
          [.recv 4 (kBufferSize - 1)
              (recv_call (IterEnv.mk (.readable nulMessage) 7).recv (kBufferSize - 1)).ret,
           .send 4 ("Echo: ".toList ++
              c_str (recv_call (IterEnv.mk (.readable nulMessage) 7).recv (kBufferSize - 1)).data)
              (IterEnv.mk (.readable nulMessage) 7).sendRet] ∧
      ("Echo: ".toList ++
          c_str (recv_call (IterEnv.mk (.readable nulMessage) 7).recv (kBufferSize - 1)).data).length =
        6 + (c_str (recv_call (IterEnv.mk (.readable nulMessage) 7).recv
              (kBufferSize - 1)).data).length ∧
      (NUL ∉ (recv_call (IterEnv.mk (.readable nulMessage) 7).recv (kBufferSize - 1)).data →
        c_str (recv_call (IterEnv.mk (.readable nulMessage) 7).recv (kBufferSize - 1)).data =
          (recv_call (IterEnv.mk (.readable nulMessage) 7).recv (kBufferSize - 1)).data)) :=
  have h1 : (handle_client 4 zGarbage [helloIter]).outcome = .blocked :=
    session_echo_running 4 zGarbage [] helloIter rfl (by decide) (by decide) (by decide)
  ⟨h1, by decide, by decide,
    echo_response_exact 4 zGarbage [helloIter] ⟨.readable nulMessage, 7⟩ h1
      (by decide) (by decide)⟩

/-- C2: when a receive of `handle_client` returns exactly the five bytes of
the termination request, after any history that left the session receiving,
the server makes one send of exactly Goodbye. and a newline, whatever that
send returns, and `handle_client` returns without another receive or send;
the accept loop then closes the connection before it goes on to the next
`accept`. -/
theorem exit_request_ends_session (server_fd fd : Int) (garbage : Nat → Char)
    (pre post : List IterEnv) (env : IterEnv) (rest : List AcceptEnv)
    (hfd : 0 ≤ fd)
    (hrun : (handle_client fd garbage pre).outcome = .blocked)
    (hexit : recv_call env.recv (kBufferSize - 1) = ⟨5, "exit\n".toList⟩) :
    (handle_client fd garbage (pre ++ env :: post)).trace =
        (handle_client fd garbage pre).trace ++
          [.recv fd (kBufferSize - 1) 5, .send fd "Goodbye.\n".toList env.sendRet] ∧
      (handle_client fd garbage (pre ++ env :: post)).outcome = .returned ∧
      accept_loop server_fd (⟨fd, garbage, pre ++ env :: post⟩ :: rest) =
        .accept server_fd fd ::
          ((handle_client fd garbage (pre ++ env :: post)).trace ++ [.close fd]
            ++ accept_loop server_fd rest) := by
  obtain ⟨hb, heq⟩ := session_step fd garbage pre (env :: post) hrun
  have hx : c_str (recv_call env.recv (kBufferSize - 1)).data = "exit\n".toList := by
    rw [hexit]; decide
  have hres : (handle_client fd garbage (pre ++ env :: post)).trace =
        (handle_client fd garbage pre).trace ++
          [.recv fd (kBufferSize - 1) 5, .send fd "Goodbye.\n".toList env.sendRet] ∧
      (handle_client fd garbage (pre ++ env :: post)).outcome = .returned := by
    rw [heq, loop_cons fd _ env post hb, if_neg (by rw [hexit]; decide), if_pos hx, hexit]
    exact ⟨rfl, rfl⟩
  exact ⟨hres.1, hres.2, accept_loop_returned server_fd ⟨fd, garbage, pre ++ env :: post⟩ rest
    hfd hres.2⟩

/-- C2, at a session that echoed hello and then receives the termination request while the send fails. -/
theorem exit_request_ends_session_witness :
    (0 : Int) ≤ 4 ∧
    (handle_client 4 zGarbage [helloIter]).outcome = .blocked ∧
    recv_call (IterEnv.mk (.readable "exit\n".toList) (-1)).recv (kBufferSize - 1)
      = ⟨5, "exit\n".toList⟩ ∧
    ((handle_client 4 zGarbage ([helloIter] ++ ⟨.readable "exit\n".toList, -1⟩ :: [helloIter])).trace =
        (handle_client 4 zGarbage [helloIter]).trace ++
          [.recv 4 (kBufferSize - 1) 5,
           .send 4 "Goodbye.\n".toList (IterEnv.mk (.readable "exit\n".toList) (-1)).sendRet] ∧
      (handle_client 4 zGarbage ([helloIter] ++ ⟨.readable "exit\n".toList, -1⟩ :: [helloIter])).outcome
        = .returned ∧
      accept_loop 3 (⟨4, zGarbage, [helloIter] ++ ⟨.readable "exit\n".toList, -1⟩ :: [helloIter]⟩
          :: [⟨5, zGarbage, []⟩]) =
        .accept 3 4 ::
          ((handle_client 4 zGarbage
              ([helloIter] ++ ⟨.readable "exit\n".toList, -1⟩ :: [helloIter])).trace ++ [.close 4]
            ++ accept_loop 3 [⟨5, zGarbage, []⟩])) :=
  have h1 : (handle_client 4 zGarbage [helloIter]).outcome = .blocked :=
    session_echo_running 4 zGarbage [] helloIter rfl (by decide) (by decide) (by decide)
  ⟨by decide, h1, by decide,
    exit_request_ends_session 3 4 zGarbage _ _ _ _ (by decide) h1 (by decide)⟩

/-- C3 (counterexample): with a line of 1024 letters and no newline pending,
the first receive returns 1023 and not 1024; the line comes back in two
responses, the first with 1023 letters and the second with the last one. -/
theorem full_buffer_line_is_split :
    line1024.length = 1024 ∧ '\n' ∉ line1024 ∧
    (recv_call (.readable line1024) (kBufferSize - 1)).ret = 1023 ∧
    (handle_client 4 zGarbage [⟨.readable line1024, 1029⟩, ⟨.readable (line1024.drop 1023), 7⟩]).trace =
      [.recv 4 (kBufferSize - 1) 1023,
       .send 4 ("Echo: ".toList ++ List.replicate 1023 'a') 1029,
       .recv 4 (kBufferSize - 1) 1,
       .send 4 "Echo: a".toList 7] ∧
    (handle_client 4 zGarbage [⟨.readable line1024, 1029⟩, ⟨.readable (line1024.drop 1023), 7⟩]).trace.head?
      ≠ some (.recv 4 (kBufferSize - 1) 1024) := by
  have key : (handle_client 4 zGarbage
      [⟨.readable line1024, 1029⟩, ⟨.readable (line1024.drop 1023), 7⟩]).trace =
      [.recv 4 (kBufferSize - 1) 1023,
       .send 4 ("Echo: ".toList ++ List.replicate 1023 'a') 1029,
       .recv 4 (kBufferSize - 1) 1,
       .send 4 "Echo: a".toList 7] := by
    have hd : line1024.drop 1023 = ['a'] := by
      simp only [line1024, List.drop_replicate]; rfl
    have h1 : (handle_client 4 zGarbage [⟨.readable line1024, 1029⟩]).outcome = .blocked :=
      session_echo_running 4 zGarbage [] ⟨.readable line1024, 1029⟩ rfl
        (by rw [recv_line1024]; decide)
        (by rw [recv_line1024]; exact c_str_line1023_ne_exit)
        (by decide)
    have h2 := session_echo_last 4 zGarbage [] ⟨.readable line1024, 1029⟩ rfl
        (by rw [recv_line1024]; decide)
        (by rw [recv_line1024]; exact c_str_line1023_ne_exit)
    have h3 := session_echo_last 4 zGarbage [⟨.readable line1024, 1029⟩]
        ⟨.readable (line1024.drop 1023), 7⟩ h1
        (by rw [hd]; decide) (by rw [hd]; decide)
    rw [List.nil_append] at h2
    rw [List.singleton_append] at h3
    rw [h3, h2, recv_line1024, c_str_replicate_a, hd]
    rfl
  refine ⟨line1024_length, ?_, by rw [recv_line1024], key, ?_⟩
  · intro h
    exact absurd (List.eq_of_mem_replicate h) (by decide)
  · rw [key]
    decide

/-- C3 (amended): the receive of `handle_client` reads up to 1023 bytes, one
less than the buffer size; when a line of exactly 1024 bytes without a zero
byte is pending, the first receive returns its first 1023 bytes and the first
response is one send of the prefix Echo: followed by those 1023 bytes. -/
theorem full_buffer_line_first_echo (fd : Int) (garbage : Nat → Char) (line : List Char)
    (sendRet : Int) (post : List IterEnv)
    (hlen : line.length = 1024) (hnul : NUL ∉ line) :
    recv_call (.readable line) (kBufferSize - 1) = ⟨1023, line.take 1023⟩ ∧
      (handle_client fd garbage (⟨.readable line, sendRet⟩ :: post)).trace.take 2 =
        [.recv fd (kBufferSize - 1) 1023,
         .send fd ("Echo: ".toList ++ line.take 1023) sendRet] := by
  have hr : recv_call (.readable line) (kBufferSize - 1) = ⟨1023, line.take 1023⟩ := by
    have hk : kBufferSize - 1 = 1023 := rfl
    simp only [recv_call, hk, List.length_take, hlen]
    rfl
  have hc : c_str (line.take 1023) = line.take 1023 :=
    c_str_eq_self _ (fun h => hnul (List.mem_of_mem_take h))
  have hne : c_str (line.take 1023) ≠ "exit\n".toList := by
    apply ne_exit_of_length
    rw [hc, List.length_take, hlen]
    decide
  refine ⟨hr, ?_⟩
  have h := session_echo_trace fd garbage [] post ⟨.readable line, sendRet⟩ rfl
    (by rw [hr]; exact (by decide : (0:Int) < 1023)) (by rw [hr]; exact hne)
  rw [List.nil_append] at h
  rw [h, hr, hc]
  rfl

/-- C3 (amended), at a line of 1024 letters. -/
theorem full_buffer_line_first_echo_witness :
    line1024.length = 1024 ∧ NUL ∉ line1024 ∧
    (recv_call (.readable line1024) (kBufferSize - 1) = ⟨1023, line1024.take 1023⟩ ∧
      (handle_client 4 zGarbage (⟨.readable line1024, 1029⟩ :: [helloIter])).trace.take 2 =
        [.recv 4 (kBufferSize - 1) 1023,
         .send 4 ("Echo: ".toList ++ line1024.take 1023) 1029]) :=
  have h1 : line1024.length = 1024 := by rw [line1024, List.length_replicate]
  have h2 : NUL ∉ line1024 := fun h => absurd (List.eq_of_mem_replicate h) (by decide)
  ⟨h1, h2, full_buffer_line_first_echo 4 zGarbage line1024 1029 [helloIter] h1 h2⟩

/-- C4: after any history that left the session receiving, when a receive
of `handle_client` returns zero or a negative value, that receive is the
last call of the session: no send answers it, no receive follows it, and
`handle_client` returns. -/
theorem recv_failure_ends_session (fd : Int) (garbage : Nat → Char)
    (pre post : List IterEnv) (env : IterEnv)
    (hrun : (handle_client fd garbage pre).outcome = .blocked)
    (hret : (recv_call env.recv (kBufferSize - 1)).ret ≤ 0) :
    (handle_client fd garbage (pre ++ env :: post)).trace =
        (handle_client fd garbage pre).trace
          ++ [.recv fd (kBufferSize - 1) (recv_call env.recv (kBufferSize - 1)).ret] ∧
      (handle_client fd garbage (pre ++ env :: post)).outcome = .returned := by
  obtain ⟨hb, heq⟩ := session_step fd garbage pre (env :: post) hrun
  rw [heq, loop_cons fd _ env post hb, if_pos hret]
  exact ⟨rfl, rfl⟩

/-- C4, at a session that echoed hello and then has a failing receive. -/
theorem recv_failure_ends_session_witness :
    (handle_client 4 zGarbage [helloIter]).outcome = .blocked ∧
    (recv_call (IterEnv.mk .error 7).recv (kBufferSize - 1)).ret ≤ 0 ∧
    ((handle_client 4 zGarbage ([helloIter] ++ ⟨.error, 7⟩ :: [helloIter])).trace =
        (handle_client 4 zGarbage [helloIter]).trace
          ++ [.recv 4 (kBufferSize - 1)
                (recv_call (IterEnv.mk .error 7).recv (kBufferSize - 1)).ret] ∧
      (handle_client 4 zGarbage ([helloIter] ++ ⟨.error, 7⟩ :: [helloIter])).outcome
        = .returned) :=
  have h1 : (handle_client 4 zGarbage [helloIter]).outcome = .blocked :=
    session_echo_running 4 zGarbage [] helloIter rfl (by decide) (by decide) (by decide)
  ⟨h1, by decide, recv_failure_ends_session 4 zGarbage _ _ _ h1 (by decide)⟩

/-- C5: after any history that left the session receiving, when the send of
an echo response returns a negative value, the receive and that send are the
last calls of the session and `handle_client` returns; the accept loop closes
the connection and its next call is the `accept` of the next iteration. -/
theorem echo_send_failure_ends_session (server_fd fd : Int) (garbage : Nat → Char)
    (pre post : List IterEnv) (env : IterEnv) (next : AcceptEnv) (rest : List AcceptEnv)
    (hfd : 0 ≤ fd)
    (hrun : (handle_client fd garbage pre).outcome = .blocked)
    (hpos : 0 < (recv_call env.recv (kBufferSize - 1)).ret)
    (hne : c_str (recv_call env.recv (kBufferSize - 1)).data ≠ "exit\n".toList)
    (hfail : env.sendRet < 0) :
    (handle_client fd garbage (pre ++ env :: post)).trace =
        (handle_client fd garbage pre).trace ++
          [.recv fd (kBufferSize - 1) (recv_call env.recv (kBufferSize - 1)).ret,
           .send fd ("Echo: ".toList ++ c_str (recv_call env.recv (kBufferSize - 1)).data)
              env.sendRet] ∧
      (handle_client fd garbage (pre ++ env :: post)).outcome = .returned ∧
      accept_loop server_fd (⟨fd, garbage, pre ++ env :: post⟩ :: next :: rest) =
        .accept server_fd fd ::
          ((handle_client fd garbage (pre ++ env :: post)).trace ++ [.close fd]
            ++ accept_loop server_fd (next :: rest)) ∧
      (accept_loop server_fd (next :: rest)).head? = some (.accept server_fd next.ret) := by
  obtain ⟨hb, heq⟩ := session_step fd garbage pre (env :: post) hrun
  have hres : (handle_client fd garbage (pre ++ env :: post)).trace =
        (handle_client fd garbage pre).trace ++
          [.recv fd (kBufferSize - 1) (recv_call env.recv (kBufferSize - 1)).ret,
           .send fd ("Echo: ".toList ++ c_str (recv_call env.recv (kBufferSize - 1)).data)
              env.sendRet] ∧
      (handle_client fd garbage (pre ++ env :: post)).outcome = .returned := by
    rw [heq, loop_cons fd _ env post hb, if_neg (not_le.mpr hpos), if_neg hne, if_pos hfail]
    exact ⟨rfl, rfl⟩
  exact ⟨hres.1, hres.2,
    accept_loop_returned server_fd ⟨fd, garbage, pre ++ env :: post⟩ (next :: rest) hfd hres.2,
    accept_loop_head server_fd next rest⟩

/-- C5, at a session that echoed hello and then fails to send the echo of ping. -/
theorem echo_send_failure_ends_session_witness :
    (0 : Int) ≤ 4 ∧
    (handle_client 4 zGarbage [helloIter]).outcome = .blocked ∧
    0 < (recv_call (IterEnv.mk (.readable "ping\n".toList) (-1)).recv (kBufferSize - 1)).ret ∧
    c_str (recv_call (IterEnv.mk (.readable "ping\n".toList) (-1)).recv (kBufferSize - 1)).data
      ≠ "exit\n".toList ∧
    (IterEnv.mk (.readable "ping\n".toList) (-1)).sendRet < 0 ∧
    ((handle_client 4 zGarbage
        ([helloIter] ++ ⟨.readable "ping\n".toList, -1⟩ :: [helloIter])).trace =
        (handle_client 4 zGarbage [helloIter]).trace ++
          [.recv 4 (kBufferSize - 1)
              (recv_call (IterEnv.mk (.readable "ping\n".toList) (-1)).recv (kBufferSize - 1)).ret,
           .send 4 ("Echo: ".toList ++
              c_str (recv_call (IterEnv.mk (.readable "ping\n".toList) (-1)).recv
                (kBufferSize - 1)).data)
              (IterEnv.mk (.readable "ping\n".toList) (-1)).sendRet] ∧
      (handle_client 4 zGarbage
        ([helloIter] ++ ⟨.readable "ping\n".toList, -1⟩ :: [helloIter])).outcome = .returned ∧
      accept_loop 3 (⟨4, zGarbage, [helloIter] ++ ⟨.readable "ping\n".toList, -1⟩ :: [helloIter]⟩
          :: ⟨5, zGarbage, [helloIter]⟩ :: []) =
        .accept 3 4 ::
          ((handle_client 4 zGarbage
              ([helloIter] ++ ⟨.readable "ping\n".toList, -1⟩ :: [helloIter])).trace ++ [.close 4]
            ++ accept_loop 3 (⟨5, zGarbage, [helloIter]⟩ :: [])) ∧
      (accept_loop 3 (⟨5, zGarbage, [helloIter]⟩ :: [])).head?
        = some (.accept 3 (AcceptEnv.mk 5 zGarbage [helloIter]).ret)) :=
  have h1 : (handle_client 4 zGarbage [helloIter]).outcome = .blocked :=
    session_echo_running 4 zGarbage [] helloIter rfl (by decide) (by decide) (by decide)
  ⟨by decide, h1, by decide, by decide, by decide,
    echo_send_failure_ends_session 3 4 zGarbage [helloIter] [helloIter]
      ⟨.readable "ping\n".toList, -1⟩ ⟨5, zGarbage, [helloIter]⟩ [] (by decide) h1
      (by decide) (by decide) (by decide)⟩

/-- C6 (counterexample): `parse_port` accepts a port written with a leading
plus sign or a leading blank, which is not digits only, and `main` then goes
on to create the listening socket. -/
theorem parse_port_accepts_sign_and_blank :
    parse_port "+80".toList = some 80 ∧ parse_port " 80".toList = some 80 ∧
    "+80".toList.all isdigit = false ∧ " 80".toList.all isdigit = false ∧
    server_main ["server".toList, "+80".toList] ⟨⟨3, 0, 0, 0⟩, []⟩ =
      ⟨[.socket 3, .setsockopt 3 0, .bind 3 80 0, .listen 3 kBacklog 0], .running⟩ := by
  decide

/-- C6 (amended): `parse_port` succeeds exactly when the argument is white
space (possibly none), then an optional plus sign, then one or more decimal
digits and nothing after them, and the digits denote a number in 1..65535,
which is the port it stores; when `parse_port` fails, or when the argument
count is not 2, `main` returns 1 and has made no system call. -/
theorem parse_port_accepts_exactly (s : List Char) (p : Int) :
    (parse_port s = some p ↔
      ∃ ws sign ds, s = ws ++ sign ++ ds ∧ (∀ c ∈ ws, isspace c = true) ∧
        (sign = [] ∨ sign = ['+']) ∧ ds ≠ [] ∧ (∀ c ∈ ds, isdigit c = true) ∧
        p = digitsValue ds ∧ 1 ≤ p ∧ p ≤ 65535) ∧
    (∀ (argv : List (List Char)) (env : ServerEnv), argv.length = 2 →
      argv.getD 1 [] = s → parse_port s = none → server_main argv env = ⟨[], .code 1⟩) ∧
    (∀ (argv : List (List Char)) (env : ServerEnv), argv.length ≠ 2 →
      server_main argv env = ⟨[], .code 1⟩) := by
  refine ⟨⟨parse_port_some_parts s p, ?_⟩, ?_, ?_⟩
  · rintro ⟨ws, sign, ds, rfl, hws, hsign, hne, hds, hp, h1, h2⟩
    have hle : (digitsValue ds : Int) ≤ LONG_MAX := by
      have : (65535 : Int) ≤ LONG_MAX := by decide
      omega
    have hlen : (ws ++ sign ++ ds).length ≠ 0 := by
      have := List.length_pos.mpr hne
      simp only [List.length_append]; omega
    unfold parse_port
    rw [strtol_of_parts ws sign ds hws hsign hne hds hle]
    simp only [Bool.false_eq_true, hlen, List.drop_length, ne_eq, not_true_eq_false, or_self,
      if_false]
    rw [if_neg (by omega), hp]
  · intro argv env hlen hs hnone
    unfold server_main
    rw [if_neg (by simp [hlen]), hs, hnone]
  · intro argv env hlen
    unfold server_main
    rw [if_pos hlen]

/-- C7 (counterexample): the operator types hi and then exit; the client
sends the first line, makes no send for the second, closes the socket and
returns 0: the bytes of exit and a newline are never sent. -/
theorem client_exit_line_not_sent :
    client_main ["client".toList, "127.0.0.1".toList, "9000".toList] (loopbackEnv [hiIter, exitIter])
      = ⟨[.socket 3, .connect 3 "127.0.0.1".toList 9000 0, .send 3 "hi\n".toList 3,
          .recv 3 1023 9, .close 3], .code 0⟩ ∧
    ∀ r : Int, Event.send 3 "exit\n".toList r ∉
      (client_main ["client".toList, "127.0.0.1".toList, "9000".toList]
        (loopbackEnv [hiIter, exitIter])).trace := by
  have h : client_main ["client".toList, "127.0.0.1".toList, "9000".toList]
      (loopbackEnv [hiIter, exitIter])
      = ⟨[.socket 3, .connect 3 "127.0.0.1".toList 9000 0, .send 3 "hi\n".toList 3,
          .recv 3 1023 9, .close 3], .code 0⟩ := by decide
  refine ⟨h, ?_⟩
  intro r hmem
  rw [h] at hmem
  simp at hmem

/-- C7 (amended): when the operator types the line exit, the client makes no
`send` for that line and none after it: the loop is left with the calls made
before, the socket is closed, and `main` returns 0. -/
theorem client_exit_line_closes (argv : List (List Char)) (env : ClientEnv) (port : Int)
    (pre post : List ClientIter) (it : ClientIter)
    (hargc : argv.length = 3)
    (hport : stoi (argv.getD 2 []) = .value port)
    (hrange : 0 < port ∧ port ≤ 65535)
    (hsock : 0 ≤ env.socketRet)
    (hip : 0 < env.inet_pton (argv.getD 1 []))
    (hconn : 0 ≤ env.connectRet)
    (hconsole : env.console = pre ++ it :: post)
    (hrun : (client_loop env.socketRet pre).2 = false)
    (hexit : it.input = .line "exit".toList) :
    client_loop env.socketRet (pre ++ it :: post) = ((client_loop env.socketRet pre).1, true) ∧
      client_main argv env =
        ⟨[.socket env.socketRet,
          .connect env.socketRet (argv.getD 1 []) (port % 65536) env.connectRet]
            ++ (client_loop env.socketRet pre).1 ++ [.close env.socketRet], .code 0⟩ := by
  have hloop : client_loop env.socketRet (pre ++ it :: post)
      = ((client_loop env.socketRet pre).1, true) := by
    rw [client_loop_append _ _ _ hrun]
    have : client_loop env.socketRet (it :: post) = ([], true) := by
      rw [client_loop]; simp [hexit]
    rw [this]; simp
  refine ⟨hloop, ?_⟩
  unfold client_main
  rw [if_neg (by simp [hargc]), hport]
  simp only
  rw [if_neg (by omega), if_neg (by omega), if_neg (by omega), if_neg (by omega),
    hconsole, hloop]
  simp

/-- C7 (amended), at an operator who types hi and then exit. -/
theorem client_exit_line_closes_witness :
    ["client".toList, "127.0.0.1".toList, "9000".toList].length = 3 ∧
    stoi (["client".toList, "127.0.0.1".toList, "9000".toList].getD 2 []) = .value 9000 ∧
    ((0 : Int) < 9000 ∧ (9000 : Int) ≤ 65535) ∧
    0 ≤ (loopbackEnv [hiIter, exitIter, hiIter]).socketRet ∧
    0 < (loopbackEnv [hiIter, exitIter, hiIter]).inet_pton
          (["client".toList, "127.0.0.1".toList, "9000".toList].getD 1 []) ∧
    0 ≤ (loopbackEnv [hiIter, exitIter, hiIter]).connectRet ∧
    (loopbackEnv [hiIter, exitIter, hiIter]).console = [hiIter] ++ exitIter :: [hiIter] ∧
    (client_loop (loopbackEnv [hiIter, exitIter, hiIter]).socketRet [hiIter]).2 = false ∧
    exitIter.input = .line "exit".toList ∧
    (client_loop (loopbackEnv [hiIter, exitIter, hiIter]).socketRet
        ([hiIter] ++ exitIter :: [hiIter])
        = ((client_loop (loopbackEnv [hiIter, exitIter, hiIter]).socketRet [hiIter]).1, true) ∧
      client_main ["client".toList, "127.0.0.1".toList, "9000".toList]
          (loopbackEnv [hiIter, exitIter, hiIter]) =
        ⟨[.socket (loopbackEnv [hiIter, exitIter, hiIter]).socketRet,
          .connect (loopbackEnv [hiIter, exitIter, hiIter]).socketRet
            (["client".toList, "127.0.0.1".toList, "9000".toList].getD 1 []) (9000 % 65536)
            (loopbackEnv [hiIter, exitIter, hiIter]).connectRet]
            ++ (client_loop (loopbackEnv [hiIter, exitIter, hiIter]).socketRet [hiIter]).1
            ++ [.close (loopbackEnv [hiIter, exitIter, hiIter]).socketRet], .code 0⟩) :=
  ⟨by decide, by decide, by decide, by decide, by decide, by decide, rfl, by decide, rfl,
    client_exit_line_closes _ (loopbackEnv [hiIter, exitIter, hiIter]) 9000 [hiIter] [hiIter]
      exitIter (by decide) (by decide) (by decide) (by decide) (by decide) (by decide) rfl
      (by decide) rfl⟩

/-- C8: the client accepts the port argument 80abc and connects to port 80;
for the argument abc, and for a number too large for an `int`, an exception
leaves `main` instead of the return of exit code 1; `parse_port` of the
server rejects both 80abc and abc. -/
theorem client_port_trailing_text_accepted :
    client_main ["client".toList, "127.0.0.1".toList, "80abc".toList] (loopbackEnv [exitIter])
      = ⟨[.socket 3, .connect 3 "127.0.0.1".toList 80 0, .close 3], .code 0⟩ ∧
    client_main ["client".toList, "127.0.0.1".toList, "abc".toList] (loopbackEnv [exitIter])
      = ⟨[], .terminate⟩ ∧
    client_main ["client".toList, "127.0.0.1".toList, "99999999999".toList] (loopbackEnv [exitIter])
      = ⟨[], .terminate⟩ ∧
    parse_port "80abc".toList = none ∧ parse_port "abc".toList = none := by
  decide

/-- C9: at every point of every run of the accept loop at most one connection
handle is open; an `accept` is made only when none is open, so the handle of
the previous iteration was closed before; every `recv` and `send` goes to the
open handle, which is not among the closed ones; a failed `accept` opens no
handle and the loop goes on with the next iteration; when `handle_client`
returns the handle is closed before the loop goes on, and `handle_client`
leaves in no other way. -/
theorem accept_loop_single_handle (server_fd : Int) (script : List AcceptEnv) (n : Nat) :
    (Conns.init.replay ((accept_loop server_fd script).take n)).opened.length ≤ 1 ∧
    (∀ l ret, (accept_loop server_fd script)[n]? = some (.accept l ret) →
      (Conns.init.replay ((accept_loop server_fd script).take n)).opened = []) ∧
    (∀ fd, ((accept_loop server_fd script)[n]?).bind Event.ioTarget = some fd →
      ∃ h, (Conns.init.replay ((accept_loop server_fd script).take n)).opened = [h] ∧
        h.fd = fd ∧
        h ∉ (Conns.init.replay ((accept_loop server_fd script).take n)).closed) ∧
    (∀ fd, (accept_loop server_fd script)[n]? = some (.close fd) →
      ∃ h, (Conns.init.replay ((accept_loop server_fd script).take n)).opened = [h] ∧
        h.fd = fd) ∧
    (∀ (a : AcceptEnv) (rest : List AcceptEnv), a.ret < 0 →
      accept_loop server_fd (a :: rest)
          = .accept server_fd a.ret :: accept_loop server_fd rest ∧
        ∀ s : Conns, s.step (.accept server_fd a.ret) = s) ∧
    (∀ (a : AcceptEnv) (rest : List AcceptEnv), 0 ≤ a.ret →
      (handle_client a.ret a.garbage a.session).outcome = .returned →
      accept_loop server_fd (a :: rest) =
        .accept server_fd a.ret ::
          ((handle_client a.ret a.garbage a.session).trace ++ [.close a.ret]
            ++ accept_loop server_fd rest)) ∧
    (∀ a : AcceptEnv,
      (handle_client a.ret a.garbage a.session).outcome = .returned ∨
        (handle_client a.ret a.garbage a.session).outcome = .blocked) := by
  have h := accept_loop_handles server_fd script Conns.init rfl
    (by intro h hm; simp [Conns.init] at hm) n
  refine ⟨h.1, h.2.1, h.2.2.1, h.2.2.2, ?_, ?_, ?_⟩
  · intro a rest hneg
    exact ⟨accept_loop_failed server_fd a rest hneg, fun s => by simp [Conns.step, hneg]⟩
  · intro a rest h0 hret
    exact accept_loop_returned server_fd a rest h0 hret
  · intro a
    exact loop_outcome a.ret a.session _ (uninitialized_length a.garbage)

/-- C10: for every positive count a receive limited to one byte less than
the buffer can return, the count is at most 1023, so the terminator is
written inside the 1024-byte buffer and the write succeeds; the decoded
message is no longer than the count; no session ever reaches the
out-of-bounds outcome, and every payload sent has at most 6 + 1023 bytes. -/
theorem terminator_write_in_bounds (fd : Int) (garbage : Nat → Char)
    (pre post : List IterEnv) (env : IterEnv)
    (hpos : 0 < (recv_call env.recv (kBufferSize - 1)).ret) :
    (recv_call env.recv (kBufferSize - 1)).ret ≤ 1023 ∧
      (recv_call env.recv (kBufferSize - 1)).ret.toNat < kBufferSize ∧
      (∃ b, store (fill (handle_client fd garbage pre).buffer
                (recv_call env.recv (kBufferSize - 1)).data)
              (recv_call env.recv (kBufferSize - 1)).ret.toNat NUL = some b ∧
            (c_str b).length ≤ (recv_call env.recv (kBufferSize - 1)).ret.toNat) ∧
      (handle_client fd garbage (pre ++ env :: post)).outcome ≠ .outOfBounds ∧
      ∀ (p : List Char) (r : Int),
        Event.send fd p r ∈ (handle_client fd garbage (pre ++ env :: post)).trace →
          p.length ≤ 6 + 1023 := by
  have hb := loop_buffer_length fd pre _ (uninitialized_length garbage)
  have hle := recv_call_le_1023 env.recv
  have hlen := recv_call_length env.recv (kBufferSize - 1)
  have hsafe := loop_safe fd (pre ++ env :: post) _ (uninitialized_length garbage)
  have hlt : (recv_call env.recv (kBufferSize - 1)).ret.toNat < kBufferSize := by
    have hk : kBufferSize = 1024 := rfl
    omega
  have hdl : (recv_call env.recv (kBufferSize - 1)).data.length
      < (handle_client fd garbage pre).buffer.length := by
    rw [hlen]; exact hb ▸ hlt
  refine ⟨hle, hlt, ?_, hsafe.1, fun p r h => hsafe.2 fd p r h⟩
  refine ⟨terminated (handle_client fd garbage pre).buffer
    (recv_call env.recv (kBufferSize - 1)).data, ?_, ?_⟩
  · rw [← hlen]
    exact store_fill _ _ hdl
  · rw [terminated, c_str_append_nul, ← hlen]
    exact c_str_length_le _

/-- C10, at a receive that finds 1024 bytes pending. -/
theorem terminator_write_in_bounds_witness :
    0 < (recv_call (IterEnv.mk (.readable line1024) 1029).recv (kBufferSize - 1)).ret ∧
    ((recv_call (IterEnv.mk (.readable line1024) 1029).recv (kBufferSize - 1)).ret ≤ 1023 ∧
      (recv_call (IterEnv.mk (.readable line1024) 1029).recv (kBufferSize - 1)).ret.toNat
        < kBufferSize ∧
      (∃ b, store (fill (handle_client 4 zGarbage [helloIter]).buffer
                (recv_call (IterEnv.mk (.readable line1024) 1029).recv (kBufferSize - 1)).data)
              (recv_call (IterEnv.mk (.readable line1024) 1029).recv (kBufferSize - 1)).ret.toNat
              NUL = some b ∧
            (c_str b).length ≤
              (recv_call (IterEnv.mk (.readable line1024) 1029).recv (kBufferSize - 1)).ret.toNat) ∧
      (handle_client 4 zGarbage ([helloIter] ++ ⟨.readable line1024, 1029⟩ :: [helloIter])).outcome
        ≠ .outOfBounds ∧
      ∀ (p : List Char) (r : Int),
        Event.send 4 p r ∈
          (handle_client 4 zGarbage
            ([helloIter] ++ ⟨.readable line1024, 1029⟩ :: [helloIter])).trace →
          p.length ≤ 6 + 1023) :=
  have h2 : 0 < (recv_call (IterEnv.mk (.readable line1024) 1029).recv (kBufferSize - 1)).ret := by
    rw [recv_line1024]; decide
  ⟨h2, terminator_write_in_bounds 4 zGarbage _ _ _ h2⟩

end EchoLink
